import Mathlib

/-!
Verification of the line-framed request/response server (ss::Session and
hl::RequestHandler).

The session loop of src/ss/Session.cpp is embedded as a pure step function:
buffers are lists of characters, the socket reads and writes are abstracted
away, and one `sessionStep` models the synchronous processing that runs
between the completion of an `async_read_until` and the issuing of the next
asynchronous operation (including the buffer clearing that follows a
completed write).  The `std::sregex_token_iterator` tokenization over the
delimiter regex is embedded as `splitAll`/`tokensOf`: splitting on every
occurrence of the delimiter, where a trailing empty segment (produced when
the buffer ends with the delimiter) is not enumerated, while empty segments
before or between delimiters are.

hl::RequestHandler::handle of src/hl/RequestHandler.cpp is embedded with its
collaborators (the RequestObject constructor, the tokenizer registry and the
tokenizer itself, all outside this translation unit) passed as functions.
-/

namespace ss

/-- The framing delimiter, DATA_DELIMITER in Session.cpp. -/
def DATA_DELIMITER : Char := '\n'

/-- Split a buffer on every occurrence of the delimiter `d`: the ordered list
of the segments between occurrences, including the (possibly empty) leading
segment and the trailing segment after the last occurrence. -/
def splitAll (d : Char) : List Char → List (List Char)
  | [] => [[]]
  | c :: cs =>
    if c = d then [] :: splitAll d cs
    else
      match splitAll d cs with
      | [] => [[c]]
      | t :: ts => (c :: t) :: ts

/-- The token sequence enumerated by the `std::sregex_token_iterator` of
SessionImp::operator() over the buffer: all split segments, except that the
trailing empty segment arising when the buffer ends with the delimiter is
not enumerated. -/
def tokensOf (b : List Char) : List (List Char) :=
  if b.getLast? = some DATA_DELIMITER then (splitAll DATA_DELIMITER b).dropLast
  else splitAll DATA_DELIMITER b

/-- The Dispatch Contract as the Session consumes it: raw frame bytes in,
the pair of the returned error code (its failed() bit) and the bytes the
handler left in the response buffer. -/
def Handler : Type := List Char → Bool × List Char

/-- Observable outcome of one processing step of SessionImp::operator():
whether the session was closed, the frame handed to the handler (if any),
the bytes written to the socket (if any), the content of the read buffer at
the moment the next read would be issued, and the logged ignored-request
count. -/
structure StepResult where
  closed : Bool
  dispatched : Option (List Char)
  written : Option (List Char)
  reqAfter : List Char
  ignored : Nat
deriving Repr, DecidableEq

/-- One processing step of SessionImp::operator(), run when a read completes
with buffer `req`:  fetch the ambient handler factory and a handler from it
(closing the session when either is null); tokenize the buffer on the
delimiter and advance to the last token, counting the earlier ones as
ignored; if the buffer ends with the delimiter, hand the last token to the
handler and close on a failed error code or an empty response buffer,
otherwise append the delimiter to the response, write it, and clear both
buffers; if the buffer does not end with the delimiter, keep exactly the
last (in-progress) token as the new read buffer and read again. -/
def sessionStep (factory : Option (Option Handler)) (req : List Char) : StepResult :=
  match factory with
  | none => ⟨true, none, none, req, 0⟩
  | some none => ⟨true, none, none, req, 0⟩
  | some (some handler) =>
    let tokens := tokensOf req
    let ignored := tokens.length - 1
    let lastTok := tokens.getLastD []
    if req.getLast? = some DATA_DELIMITER then
      let out := handler lastTok
      if out.1 then ⟨true, some lastTok, none, req, ignored⟩
      else if out.2 = [] then ⟨true, some lastTok, none, req, ignored⟩
      else ⟨false, some lastTok, some (out.2 ++ [DATA_DELIMITER]), [], ignored⟩
    else
      ⟨false, none, none, lastTok, ignored⟩

/-- A buffer holding the given complete frames in order: each frame followed
by the delimiter. -/
def joinFrames (fs : List (List Char)) : List Char :=
  (fs.map (fun f => f ++ [DATA_DELIMITER])).flatten

/-- State touched by SessionImp::close(): whether the socket is open, whether
the `closeConnection` slot is still connected to the `atClose_` signal, how
many times the owner notification has fired, and how many socket operations
(cancel, shutdown, close) have been performed. -/
structure CloseState where
  sockOpen : Bool
  connected : Bool
  notifications : Nat
  socketOps : Nat
deriving Repr, DecidableEq

/-- SessionImp::close(): when the socket is open, cancel, shut down and close
it (three socket operations, after which it is no longer open); then emit the
`atClose_` signal, which notifies the owner exactly when the slot is still
connected; then disconnect the slot. -/
def close (s : CloseState) : CloseState :=
  let s1 := if s.sockOpen
    then { s with sockOpen := false, socketOps := s.socketOps + 3 }
    else s
  let s2 := if s1.connected
    then { s1 with notifications := s1.notifications + 1 }
    else s1
  { s2 with connected := false }

/-- A concrete conforming handler, used to evaluate the step function on
concrete buffers: it reports no error and produces the response "ok". -/
def okHandler : Handler := fun _ => (false, ['o', 'k'])

end ss

namespace hl

/-- Modelled from the spec: the status code of a Response Envelope has the
two values success and failure; the numeric SUCCESS_CODE / FAILURE_CODE
constants live in a header outside this translation unit. -/
inductive StatusCode : Type
  | success : StatusCode
  | failure : StatusCode
deriving Repr, DecidableEq

/-- The Request Envelope as hl::RequestHandler::handle reads it; the
`additional_info` payload is opaque to the handler, so its type is a
parameter. -/
structure RequestObject (Info : Type) where
  msg_num : Int
  id : Int
  buf_type : String
  buf_name : String
  buf_body : String
  additional_info : Info
deriving Repr, DecidableEq

/-- Modelled from the spec: the Response Envelope fields, in the order of the
brace-initializations in RequestHandler.cpp (sequence number, identifier,
declared type, name, status code, status message, result list); the field
names live in a header outside this translation unit.  Result items are
opaque to the handler, so their type is a parameter. -/
structure ResponseObject (Token : Type) where
  msg_num : Int
  id : Int
  buf_type : String
  buf_name : String
  return_code : StatusCode
  error_message : String
  tokens : List Token
deriving Repr, DecidableEq

/-- The portion of hl::RequestHandler::handle that runs after the Request
Envelope has been parsed: resolve a tokenizer for the declared buffer type
(`getTokenizer` models tokenizer::TokenizerFactory::getTokenizer, a null
tokenizer becoming `none`); when none exists, build the failure response
naming the missing type; otherwise invoke the tokenizer on (name, body,
additional info), map an empty status text to success and a non-empty one
to failure, and keep the produced token list.  The returned error code is
the default-constructed one in both branches. -/
def handleParsed {Info Token : Type}
    (getTokenizer : String → Option (String → String → Info → String × List Token))
    (q : RequestObject Info) : Bool × ResponseObject Token :=
  match getTokenizer q.buf_type with
  | none =>
    (false, ⟨q.msg_num, q.id, q.buf_type, q.buf_name, .failure,
      "couldn\x27t get tokenizer for buffer type: " ++ q.buf_type, []⟩)
  | some tokenize =>
    let r := tokenize q.buf_name q.buf_body q.additional_info
    (false, ⟨q.msg_num, q.id, q.buf_type, q.buf_name,
      if r.1 = "" then .success else .failure, r.1, r.2⟩)

/-- hl::RequestHandler::handle.  `parse` models the RequestObject constructor
(a thrown exception becomes `.error` carrying the exception text); on a
parse failure the zeroed failure response is built, otherwise processing
continues in `handleParsed`.  The result is the pair of the returned error
code (its failed() bit; `returnCode` is default-constructed and never
modified) and the Response Envelope the function serializes into the output
buffer (the serialization itself, ResponseObject::dump, is outside this
translation unit). -/
def handle {Info Token : Type}
    (parse : String → Except String (RequestObject Info))
    (getTokenizer : String → Option (String → String → Info → String × List Token))
    (request : String) : Bool × ResponseObject Token :=
  match parse request with
  | .error e => (false, ⟨0, 0, "", "", .failure, e, []⟩)
  | .ok q => handleParsed getTokenizer q

/-- A concrete parse collaborator that always fails with a fixed error text. -/
def parseFail : String → Except String (RequestObject Unit) :=
  fun _ => .error "invalid json"

/-- A concrete well-formed Request Envelope. -/
def sampleReq : RequestObject Unit := ⟨7, 3, "cpp", "file.cpp", "int x;", ()⟩

/-- A concrete parse collaborator that always succeeds with `sampleReq`. -/
def parseOk : String → Except String (RequestObject Unit) :=
  fun _ => .ok sampleReq

/-- A concrete registry with no tokenizers at all. -/
def noTokenizers : String → Option (String → String → Unit → String × List Nat) :=
  fun _ => none

/-- A concrete tokenizer returning an empty status and three tokens. -/
def okTokenizer : String → String → Unit → String × List Nat :=
  fun _ _ _ => ("", [1, 2, 3])

/-- A concrete registry resolving every type to `okTokenizer`. -/
def allOkTokenizers : String → Option (String → String → Unit → String × List Nat) :=
  fun _ => some okTokenizer

end hl

namespace ss

/-- Splitting the empty buffer yields one empty segment. -/
theorem splitAll_nil (d : Char) : splitAll d [] = [[]] := rfl

/-- Splitting a buffer that starts with the delimiter prepends an empty
segment to the split of the rest. -/
theorem splitAll_cons_self (d : Char) (cs : List Char) :
    splitAll d (d :: cs) = [] :: splitAll d cs := by
  simp [splitAll]

/-- The split of any buffer is non-empty. -/
theorem splitAll_ne_nil (d : Char) (l : List Char) : splitAll d l ≠ [] := by
  cases l with
  | nil => simp [splitAll]
  | cons c cs =>
    simp only [splitAll]
    split
    · simp
    · split <;> simp

/-- Splitting a buffer that starts with a non-delimiter character prepends
that character to the first segment of the split of the rest. -/
theorem splitAll_cons_ne (d c : Char) (cs : List Char) (hc : ¬(c = d))
    (t : List Char) (ts : List (List Char)) (hts : splitAll d cs = t :: ts) :
    splitAll d (c :: cs) = (c :: t) :: ts := by
  simp [splitAll, if_neg hc, hts]

/-- A delimiter-free buffer splits into itself as the single segment. -/
theorem splitAll_not_mem (d : Char) (l : List Char) (h : d ∉ l) : splitAll d l = [l] := by
  induction l with
  | nil => rfl
  | cons c cs ih =>
    have hc : ¬(c = d) := fun hcd => h (hcd ▸ List.mem_cons_self c cs)
    have hcs : d ∉ cs := fun hm => h (List.mem_cons_of_mem _ hm)
    exact splitAll_cons_ne d c cs hc cs [] (ih hcs)

/-- Splitting past a delimiter-free segment followed by a delimiter yields
that segment and then the split of the rest. -/
theorem splitAll_append_cons (d : Char) (f rest : List Char) (h : d ∉ f) :
    splitAll d (f ++ d :: rest) = f :: splitAll d rest := by
  induction f with
  | nil => rw [List.nil_append, splitAll_cons_self]
  | cons c cs ih =>
    have hc : ¬(c = d) := fun hcd => h (hcd ▸ List.mem_cons_self c cs)
    have hcs : d ∉ cs := fun hm => h (List.mem_cons_of_mem _ hm)
    rw [List.cons_append, splitAll_cons_ne d c _ hc cs (splitAll d rest) (ih hcs)]

/-- Appending a final delimiter appends a final empty segment to the split. -/
theorem splitAll_concat_delim (d : Char) (l : List Char) :
    splitAll d (l ++ [d]) = splitAll d l ++ [[]] := by
  induction l with
  | nil => rw [List.nil_append, splitAll_cons_self]; rfl
  | cons c cs ih =>
    by_cases hc : c = d
    · rw [hc, List.cons_append, splitAll_cons_self, splitAll_cons_self, ih, List.cons_append]
    · obtain ⟨t, ts, hts⟩ := List.exists_cons_of_ne_nil (splitAll_ne_nil d cs)
      have h2 : splitAll d (cs ++ [d]) = t :: (ts ++ [[]]) := by
        rw [ih, hts]; rfl
      rw [List.cons_append, splitAll_cons_ne d c _ hc t (ts ++ [[]]) h2,
        splitAll_cons_ne d c cs hc t ts hts, List.cons_append]

/-- Unfolding of `joinFrames` on a leading frame. -/
theorem joinFrames_cons (f : List Char) (fs : List (List Char)) :
    joinFrames (f :: fs) = f ++ DATA_DELIMITER :: joinFrames fs := by
  simp [joinFrames]

/-- Splitting a buffer of delimiter-free complete frames followed by a rest
yields the frames and then the split of the rest. -/
theorem splitAll_joinFrames_append (fs : List (List Char)) (rest : List Char)
    (h : ∀ f ∈ fs, DATA_DELIMITER ∉ f) :
    splitAll DATA_DELIMITER (joinFrames fs ++ rest) = fs ++ splitAll DATA_DELIMITER rest := by
  induction fs with
  | nil => rw [show joinFrames [] = [] from rfl, List.nil_append, List.nil_append]
  | cons f fs ih =>
    have hf : DATA_DELIMITER ∉ f := h f (List.mem_cons_self f fs)
    have hfs : ∀ g ∈ fs, DATA_DELIMITER ∉ g := fun g hg => h g (List.mem_cons_of_mem _ hg)
    rw [joinFrames_cons, List.append_assoc, List.cons_append,
      splitAll_append_cons DATA_DELIMITER f _ hf, ih hfs, List.cons_append]

/-- A non-empty frame sequence joins to a buffer ending with the delimiter. -/
theorem joinFrames_concat_delim (fs : List (List Char)) (h : fs ≠ []) :
    ∃ l, joinFrames fs = l ++ [DATA_DELIMITER] := by
  induction fs with
  | nil => exact absurd rfl h
  | cons f fs ih =>
    cases fs with
    | nil => exact ⟨f, by simp [joinFrames]⟩
    | cons g gs =>
      obtain ⟨l, hl⟩ := ih (by simp)
      refine ⟨f ++ DATA_DELIMITER :: l, ?_⟩
      rw [joinFrames_cons, hl]
      simp

/-- The last byte of a joined non-empty frame sequence is the delimiter. -/
theorem getLast?_joinFrames (fs : List (List Char)) (h : fs ≠ []) :
    (joinFrames fs).getLast? = some DATA_DELIMITER := by
  obtain ⟨l, hl⟩ := joinFrames_concat_delim fs h
  rw [hl]
  exact List.getLast?_concat l

/-- A buffer ending in a non-empty delimiter-free segment does not end with
the delimiter. -/
theorem getLast?_joinFrames_append (fs : List (List Char)) (part : List Char)
    (hp : part ≠ []) (hd : DATA_DELIMITER ∉ part) :
    (joinFrames fs ++ part).getLast? ≠ some DATA_DELIMITER := by
  rcases List.eq_nil_or_concat part with hnil | ⟨l, c, hlc⟩
  · exact absurd hnil hp
  · rw [List.concat_eq_append] at hlc
    subst hlc
    rw [← List.append_assoc, List.getLast?_concat]
    intro hcontra
    have hc : c = DATA_DELIMITER := by injection hcontra
    exact hd (hc ▸ List.mem_append_right l (List.mem_singleton.mpr rfl))

/-- When a non-empty buffer does not end with the delimiter, the last
segment of its split is non-empty. -/
theorem splitAll_getLast?_ne_nil (d : Char) (l : List Char) (hne : l ≠ [])
    (hlast : l.getLast? ≠ some d) :
    ∃ t, (splitAll d l).getLast? = some t ∧ t ≠ [] := by
  induction l with
  | nil => exact absurd rfl hne
  | cons c cs ih =>
    cases cs with
    | nil =>
      have hc : ¬(c = d) := fun hcd => hlast (by simp [hcd])
      refine ⟨[c], ?_, by simp⟩
      rw [splitAll_cons_ne d c [] hc [] [] rfl]
      simp
    | cons g gs =>
      have h2 : (g :: gs).getLast? ≠ some d := by
        rwa [List.getLast?_cons_cons] at hlast
      obtain ⟨t, ht, htne⟩ := ih (by simp) h2
      obtain ⟨x, xs, hxs⟩ := List.exists_cons_of_ne_nil (splitAll_ne_nil d (g :: gs))
      by_cases hc : c = d
      · refine ⟨t, ?_, htne⟩
        rw [hc, splitAll_cons_self, hxs, List.getLast?_cons_cons, ← hxs, ht]
      · cases xs with
        | nil =>
          have hxt : x = t := by
            rw [hxs] at ht
            simpa using ht
          refine ⟨c :: x, ?_, by simp⟩
          rw [splitAll_cons_ne d c (g :: gs) hc x [] hxs]
          simp
        | cons y ys =>
          refine ⟨t, ?_, htne⟩
          rw [splitAll_cons_ne d c (g :: gs) hc x (y :: ys) hxs, List.getLast?_cons_cons]
          rw [hxs, List.getLast?_cons_cons] at ht
          exact ht

/-- The token sequence over a buffer of complete frames is exactly the frame
sequence: the trailing empty segment is not enumerated. -/
theorem tokensOf_joinFrames (fs : List (List Char)) (hfs : fs ≠ [])
    (h : ∀ f ∈ fs, DATA_DELIMITER ∉ f) :
    tokensOf (joinFrames fs) = fs := by
  unfold tokensOf
  rw [if_pos (getLast?_joinFrames fs hfs)]
  have h0 : splitAll DATA_DELIMITER (joinFrames fs) = fs ++ [[]] := by
    have h1 := splitAll_joinFrames_append fs [] h
    rwa [List.append_nil, splitAll_nil] at h1
  rw [h0, List.dropLast_concat]

/-- The token sequence over complete frames followed by an unterminated
segment is the frames and then that segment. -/
theorem tokensOf_joinFrames_append (fs : List (List Char)) (part : List Char)
    (hp : part ≠ []) (hd : DATA_DELIMITER ∉ part)
    (h : ∀ f ∈ fs, DATA_DELIMITER ∉ f) :
    tokensOf (joinFrames fs ++ part) = fs ++ [part] := by
  unfold tokensOf
  rw [if_neg (getLast?_joinFrames_append fs part hp hd),
    splitAll_joinFrames_append fs part h, splitAll_not_mem _ _ hd]

/-- C1: Coalescing.  When a read completes with the buffer holding a
non-empty sequence of complete delimiter-terminated frames and the handler
accepts the chosen frame (no failed error code, non-empty response), the
Session dispatches exactly the last frame, logs the earlier frames as
ignored with their count, writes the response followed by the delimiter,
stays open, and the read buffer is empty when the next read is issued. -/
theorem coalescing_dispatches_last_frame (handler : Handler) (fs : List (List Char))
    (hfs : fs ≠ []) (hfree : ∀ f ∈ fs, DATA_DELIMITER ∉ f)
    (hok : (handler (fs.getLastD [])).1 = false)
    (hne : (handler (fs.getLastD [])).2 ≠ []) :
    sessionStep (some (some handler)) (joinFrames fs) =
      ⟨false, some (fs.getLastD []),
        some ((handler (fs.getLastD [])).2 ++ [DATA_DELIMITER]), [], fs.length - 1⟩ := by
  simp only [sessionStep]
  rw [tokensOf_joinFrames fs hfs hfree, if_pos (getLast?_joinFrames fs hfs)]
  simp only [hok, Bool.false_eq_true, if_false, if_neg hne]

/-- C2: Retention of the trailing unterminated segment.  When a read
completes with the buffer holding complete frames followed by a non-empty
unterminated segment, nothing is dispatched, nothing is written, the session
stays open, and the read buffer is replaced by exactly that trailing
segment before the next read; all earlier content is discarded (and counted
as ignored). -/
theorem trailing_segment_retained (handler : Handler) (fs : List (List Char)) (part : List Char)
    (hp : part ≠ []) (hdp : DATA_DELIMITER ∉ part)
    (hfree : ∀ f ∈ fs, DATA_DELIMITER ∉ f) :
    sessionStep (some (some handler)) (joinFrames fs ++ part) =
      ⟨false, none, none, part, fs.length⟩ := by
  simp only [sessionStep]
  rw [tokensOf_joinFrames_append fs part hp hdp hfree,
    if_neg (getLast?_joinFrames_append fs part hp hdp)]
  rw [List.getLastD_eq_getLast?, List.getLast?_concat]
  simp

/-- C3 counterexample: a read buffer consisting of the single delimiter byte
does cause the empty segment to be dispatched to the handler, contradicting
the claim that the dispatched segment is always non-empty. -/
theorem lone_delimiter_dispatches_empty :
    (sessionStep (some (some okHandler)) [DATA_DELIMITER]).dispatched = some [] := by
  decide

/-- C3 (amended): for a buffer ending with the delimiter, the dispatched
segment is the segment immediately before that final delimiter, and it is
non-empty whenever the content before the final delimiter is non-empty and
does not itself end with the delimiter; a buffer consisting only of
delimiter bytes, or ending in two consecutive delimiters, dispatches the
empty segment instead. -/
theorem dispatched_segment_nonempty (handler : Handler) (body : List Char)
    (hne : body ≠ []) (hlast : body.getLast? ≠ some DATA_DELIMITER) :
    ∃ t, (sessionStep (some (some handler)) (body ++ [DATA_DELIMITER])).dispatched = some t
      ∧ t ≠ [] := by
  obtain ⟨t, ht, htne⟩ := splitAll_getLast?_ne_nil DATA_DELIMITER body hne hlast
  refine ⟨t, ?_, htne⟩
  have h1 : (body ++ [DATA_DELIMITER]).getLast? = some DATA_DELIMITER :=
    List.getLast?_concat body
  have h2 : tokensOf (body ++ [DATA_DELIMITER]) = splitAll DATA_DELIMITER body := by
    unfold tokensOf
    rw [if_pos h1, splitAll_concat_delim, List.dropLast_concat]
  have h3 : (splitAll DATA_DELIMITER body).getLastD [] = t := by
    rw [List.getLastD_eq_getLast?, ht]
    rfl
  simp only [sessionStep]
  rw [h2, if_pos h1, h3]
  split
  · rfl
  · split <;> rfl

/-- C4: Fatal dispatch outcomes.  For a buffer ending with the delimiter,
the session closes exactly when the handler reports a failed error code or
leaves the response buffer empty; when it closes nothing is written, and
when it stays open the written bytes are the response followed by the
delimiter. -/
theorem fatal_dispatch_outcomes (handler : Handler) (req : List Char)
    (hlast : req.getLast? = some DATA_DELIMITER) :
    ((sessionStep (some (some handler)) req).closed = true ↔
      ((handler ((tokensOf req).getLastD [])).1 = true ∨
        (handler ((tokensOf req).getLastD [])).2 = [])) ∧
    ((sessionStep (some (some handler)) req).closed = true →
      (sessionStep (some (some handler)) req).written = none) ∧
    ((sessionStep (some (some handler)) req).closed = false →
      (sessionStep (some (some handler)) req).written =
        some ((handler ((tokensOf req).getLastD [])).2 ++ [DATA_DELIMITER])) := by
  simp only [sessionStep]
  rw [if_pos hlast]
  cases hout : handler ((tokensOf req).getLastD []) with
  | mk b res =>
    cases b with
    | true => simp
    | false =>
      by_cases hres : res = []
      · simp [hres]
      · simp [hres]

/-- C9: close() is idempotent.  Starting from a Session whose close slot is
connected and whose owner has not yet been notified, the first close
notifies the owner exactly once, and a second close performs no further
socket operations and emits no further notification. -/
theorem close_idempotent (s : CloseState) (hc : s.connected = true)
    (hn : s.notifications = 0) :
    (close s).notifications = 1 ∧
    (close (close s)).notifications = 1 ∧
    (close (close s)).socketOps = (close s).socketOps := by
  obtain ⟨so, co, n, ops⟩ := s
  simp only at hc hn
  subst hc
  subst hn
  cases so <;> simp [close]

/-- C10: when the ambient handler factory is unset or returns a null
handler, the Session closes immediately: no frame is dispatched and nothing
is written. -/
theorem missing_factory_closes (factory : Option (Option Handler)) (req : List Char)
    (h : factory = none ∨ factory = some none) :
    sessionStep factory req = ⟨true, none, none, req, 0⟩ := by
  rcases h with h | h <;> subst h <;> rfl

end ss

namespace hl

/-- Equation of `handle` on a failing parse. -/
theorem handle_error_eq {Info Token : Type}
    (parse : String → Except String (RequestObject Info))
    (getTokenizer : String → Option (String → String → Info → String × List Token))
    (request : String) (e : String) (hp : parse request = .error e) :
    handle parse getTokenizer request = (false, ⟨0, 0, "", "", .failure, e, []⟩) := by
  unfold handle
  rw [hp]

/-- Equation of `handle` on a successful parse. -/
theorem handle_ok_eq {Info Token : Type}
    (parse : String → Except String (RequestObject Info))
    (getTokenizer : String → Option (String → String → Info → String × List Token))
    (request : String) (q : RequestObject Info) (hp : parse request = .ok q) :
    handle parse getTokenizer request = handleParsed getTokenizer q := by
  unfold handle
  rw [hp]

/-- Equation of `handleParsed` when no tokenizer resolves. -/
theorem handleParsed_none_eq {Info Token : Type}
    (getTokenizer : String → Option (String → String → Info → String × List Token))
    (q : RequestObject Info) (ht : getTokenizer q.buf_type = none) :
    handleParsed getTokenizer q =
      (false, ⟨q.msg_num, q.id, q.buf_type, q.buf_name, .failure,
        "couldn\x27t get tokenizer for buffer type: " ++ q.buf_type, []⟩) := by
  unfold handleParsed
  rw [ht]

/-- Equation of `handleParsed` when a tokenizer resolves. -/
theorem handleParsed_some_eq {Info Token : Type}
    (getTokenizer : String → Option (String → String → Info → String × List Token))
    (q : RequestObject Info)
    (tokenize : String → String → Info → String × List Token)
    (ht : getTokenizer q.buf_type = some tokenize) :
    handleParsed getTokenizer q =
      (false, ⟨q.msg_num, q.id, q.buf_type, q.buf_name,
        if (tokenize q.buf_name q.buf_body q.additional_info).1 = ""
          then .success else .failure,
        (tokenize q.buf_name q.buf_body q.additional_info).1,
        (tokenize q.buf_name q.buf_body q.additional_info).2⟩) := by
  unfold handleParsed
  rw [ht]

/-- C5: hl::RequestHandler::handle never reports a transport error: on every
path (parse failure, unresolvable tokenizer type, normal processing) the
returned error code is the default non-failing one. -/
theorem handle_no_transport_error {Info Token : Type}
    (parse : String → Except String (RequestObject Info))
    (getTokenizer : String → Option (String → String → Info → String × List Token))
    (request : String) :
    (handle parse getTokenizer request).1 = false := by
  cases hp : parse request with
  | error e => rw [handle_error_eq parse getTokenizer request e hp]
  | ok q =>
    rw [handle_ok_eq parse getTokenizer request q hp]
    cases ht : getTokenizer q.buf_type with
    | none => rw [handleParsed_none_eq getTokenizer q ht]
    | some tokenize => rw [handleParsed_some_eq getTokenizer q tokenize ht]

/-- C6: on a parse failure with error text e, the handler returns no
transport error and a response with sequence number 0, identifier 0, empty
type, empty name, failure status, message e (non-empty when e is), and an
empty result list. -/
theorem parse_failure_response {Info Token : Type}
    (parse : String → Except String (RequestObject Info))
    (getTokenizer : String → Option (String → String → Info → String × List Token))
    (request : String) (e : String)
    (hp : parse request = .error e) (he : e ≠ "") :
    handle parse getTokenizer request = (false, ⟨0, 0, "", "", .failure, e, []⟩) ∧
    (handle parse getTokenizer request).2.error_message ≠ "" := by
  rw [handle_error_eq parse getTokenizer request e hp]
  exact ⟨rfl, he⟩

/-- C7: when the declared type resolves to no tokenizer, the handler returns
no transport error and a response echoing the identifying fields of the
request, with failure status, a message naming the missing type, and an
empty result list. -/
theorem unknown_type_response {Info Token : Type}
    (parse : String → Except String (RequestObject Info))
    (getTokenizer : String → Option (String → String → Info → String × List Token))
    (request : String) (q : RequestObject Info)
    (hp : parse request = .ok q) (ht : getTokenizer q.buf_type = none) :
    handle parse getTokenizer request =
      (false, ⟨q.msg_num, q.id, q.buf_type, q.buf_name, .failure,
        "couldn\x27t get tokenizer for buffer type: " ++ q.buf_type, []⟩) := by
  rw [handle_ok_eq parse getTokenizer request q hp, handleParsed_none_eq getTokenizer q ht]

/-- C8: processor status mapping.  With a resolvable tokenizer, the handler
returns no transport error and echoes the identifying fields; an empty
status text yields success with an empty message, a non-empty status text
yields failure with that text as the message; the result list is exactly
the one the tokenizer produced. -/
theorem processor_status_mapping {Info Token : Type}
    (parse : String → Except String (RequestObject Info))
    (getTokenizer : String → Option (String → String → Info → String × List Token))
    (request : String) (q : RequestObject Info)
    (tokenize : String → String → Info → String × List Token)
    (hp : parse request = .ok q) (ht : getTokenizer q.buf_type = some tokenize) :
    (handle parse getTokenizer request).1 = false ∧
    (handle parse getTokenizer request).2.msg_num = q.msg_num ∧
    (handle parse getTokenizer request).2.id = q.id ∧
    (handle parse getTokenizer request).2.buf_type = q.buf_type ∧
    (handle parse getTokenizer request).2.buf_name = q.buf_name ∧
    ((tokenize q.buf_name q.buf_body q.additional_info).1 = "" →
      (handle parse getTokenizer request).2.return_code = .success ∧
      (handle parse getTokenizer request).2.error_message = "") ∧
    ((tokenize q.buf_name q.buf_body q.additional_info).1 ≠ "" →
      (handle parse getTokenizer request).2.return_code = .failure ∧
      (handle parse getTokenizer request).2.error_message =
        (tokenize q.buf_name q.buf_body q.additional_info).1) ∧
    (handle parse getTokenizer request).2.tokens =
      (tokenize q.buf_name q.buf_body q.additional_info).2 := by
  rw [handle_ok_eq parse getTokenizer request q hp,
    handleParsed_some_eq getTokenizer q tokenize ht]
  exact ⟨rfl, rfl, rfl, rfl, rfl,
    fun hs => ⟨if_pos hs, hs⟩,
    fun hs => ⟨if_neg hs, rfl⟩, rfl⟩

end hl

namespace ss

/-- Witness for C1 on the buffer holding the frames A, B, C: C is
dispatched, 2 frames are ignored, and the buffer ends empty. -/
theorem coalescing_dispatches_last_frame_witness :
    (([['A'], ['B'], ['C']] : List (List Char)) ≠ []) ∧
    (∀ f ∈ ([['A'], ['B'], ['C']] : List (List Char)), DATA_DELIMITER ∉ f) ∧
    ((okHandler (([['A'], ['B'], ['C']] : List (List Char)).getLastD [])).1 = false) ∧
    ((okHandler (([['A'], ['B'], ['C']] : List (List Char)).getLastD [])).2 ≠ []) ∧
    sessionStep (some (some okHandler)) (joinFrames [['A'], ['B'], ['C']]) =
      ⟨false, some ['C'], some ['o', 'k', DATA_DELIMITER], [], 2⟩ :=
  ⟨by decide, by decide, by decide, by decide, by
    have h := coalescing_dispatches_last_frame okHandler [['A'], ['B'], ['C']]
      (by decide) (by decide) (by decide) (by decide)
    exact h⟩

/-- Witness for C2 on the buffer A, B followed by the unterminated PART:
nothing is dispatched and exactly PART is retained. -/
theorem trailing_segment_retained_witness :
    ((['P', 'A', 'R', 'T'] : List Char) ≠ []) ∧
    (DATA_DELIMITER ∉ (['P', 'A', 'R', 'T'] : List Char)) ∧
    (∀ f ∈ ([['A'], ['B']] : List (List Char)), DATA_DELIMITER ∉ f) ∧
    sessionStep (some (some okHandler)) (joinFrames [['A'], ['B']] ++ ['P', 'A', 'R', 'T']) =
      ⟨false, none, none, ['P', 'A', 'R', 'T'], 2⟩ :=
  ⟨by decide, by decide, by decide, by
    have h := trailing_segment_retained okHandler [['A'], ['B']] ['P', 'A', 'R', 'T']
      (by decide) (by decide) (by decide)
    exact h⟩

/-- Witness for the amended C3 on the buffer holding the single frame A. -/
theorem dispatched_segment_nonempty_witness :
    ((['A'] : List Char) ≠ []) ∧
    ((['A'] : List Char).getLast? ≠ some DATA_DELIMITER) ∧
    (∃ t, (sessionStep (some (some okHandler)) (['A'] ++ [DATA_DELIMITER])).dispatched = some t
      ∧ t ≠ []) :=
  ⟨by decide, by decide,
    dispatched_segment_nonempty okHandler ['A'] (by decide) (by decide)⟩

/-- Witness for C4 on the buffer holding the single frame A. -/
theorem fatal_dispatch_outcomes_witness :
    (['A', DATA_DELIMITER].getLast? = some DATA_DELIMITER) ∧
    (((sessionStep (some (some okHandler)) ['A', DATA_DELIMITER]).closed = true ↔
        ((okHandler ((tokensOf ['A', DATA_DELIMITER]).getLastD [])).1 = true ∨
          (okHandler ((tokensOf ['A', DATA_DELIMITER]).getLastD [])).2 = [])) ∧
      ((sessionStep (some (some okHandler)) ['A', DATA_DELIMITER]).closed = true →
        (sessionStep (some (some okHandler)) ['A', DATA_DELIMITER]).written = none) ∧
      ((sessionStep (some (some okHandler)) ['A', DATA_DELIMITER]).closed = false →
        (sessionStep (some (some okHandler)) ['A', DATA_DELIMITER]).written =
          some ((okHandler ((tokensOf ['A', DATA_DELIMITER]).getLastD [])).2 ++
            [DATA_DELIMITER]))) :=
  ⟨by decide, fatal_dispatch_outcomes okHandler ['A', DATA_DELIMITER] (by decide)⟩

/-- Witness for C9 from the freshly opened state. -/
theorem close_idempotent_witness :
    ((⟨true, true, 0, 0⟩ : CloseState).connected = true) ∧
    ((⟨true, true, 0, 0⟩ : CloseState).notifications = 0) ∧
    ((close ⟨true, true, 0, 0⟩).notifications = 1 ∧
      (close (close ⟨true, true, 0, 0⟩)).notifications = 1 ∧
      (close (close ⟨true, true, 0, 0⟩)).socketOps = (close ⟨true, true, 0, 0⟩).socketOps) :=
  ⟨rfl, rfl, close_idempotent ⟨true, true, 0, 0⟩ rfl rfl⟩

/-- Witness for C10 with an unset factory. -/
theorem missing_factory_closes_witness :
    ((none : Option (Option Handler)) = none ∨
      (none : Option (Option Handler)) = some none) ∧
    sessionStep none ['A'] = ⟨true, none, none, ['A'], 0⟩ :=
  ⟨Or.inl rfl, missing_factory_closes none ['A'] (Or.inl rfl)⟩

end ss

namespace hl

/-- Witness for C6 with a parse collaborator failing with a fixed text. -/
theorem parse_failure_response_witness :
    parseFail "x" = Except.error "invalid json" ∧
    ("invalid json" ≠ "") ∧
    (handle parseFail noTokenizers "x" =
        (false, ⟨0, 0, "", "", .failure, "invalid json", []⟩) ∧
      (handle parseFail noTokenizers "x").2.error_message ≠ "") :=
  ⟨rfl, by decide,
    parse_failure_response parseFail noTokenizers "x" "invalid json" rfl (by decide)⟩

/-- Witness for C7 with an empty registry. -/
theorem unknown_type_response_witness :
    parseOk "x" = Except.ok sampleReq ∧
    noTokenizers sampleReq.buf_type = none ∧
    handle parseOk noTokenizers "x" =
      (false, ⟨sampleReq.msg_num, sampleReq.id, sampleReq.buf_type, sampleReq.buf_name,
        .failure, "couldn\x27t get tokenizer for buffer type: " ++ sampleReq.buf_type, []⟩) :=
  ⟨rfl, rfl, unknown_type_response parseOk noTokenizers "x" sampleReq rfl rfl⟩

/-- Witness for C8 with a tokenizer returning an empty status and three
tokens. -/
theorem processor_status_mapping_witness :
    parseOk "x" = Except.ok sampleReq ∧
    allOkTokenizers sampleReq.buf_type = some okTokenizer ∧
    ((handle parseOk allOkTokenizers "x").1 = false ∧
      (handle parseOk allOkTokenizers "x").2.msg_num = sampleReq.msg_num ∧
      (handle parseOk allOkTokenizers "x").2.id = sampleReq.id ∧
      (handle parseOk allOkTokenizers "x").2.buf_type = sampleReq.buf_type ∧
      (handle parseOk allOkTokenizers "x").2.buf_name = sampleReq.buf_name ∧
      ((okTokenizer sampleReq.buf_name sampleReq.buf_body sampleReq.additional_info).1 = "" →
        (handle parseOk allOkTokenizers "x").2.return_code = .success ∧
        (handle parseOk allOkTokenizers "x").2.error_message = "") ∧
      ((okTokenizer sampleReq.buf_name sampleReq.buf_body sampleReq.additional_info).1 ≠ "" →
        (handle parseOk allOkTokenizers "x").2.return_code = .failure ∧
        (handle parseOk allOkTokenizers "x").2.error_message =
          (okTokenizer sampleReq.buf_name sampleReq.buf_body sampleReq.additional_info).1) ∧
      (handle parseOk allOkTokenizers "x").2.tokens =
        (okTokenizer sampleReq.buf_name sampleReq.buf_body sampleReq.additional_info).2) :=
  ⟨rfl, rfl,
    processor_status_mapping parseOk allOkTokenizers "x" sampleReq okTokenizer rfl rfl⟩

end hl
